import Mathlib

/-!
Verification development for the bank-consolidator import pipeline
(`src/app.js`).  The JavaScript source is shallowly embedded: strings are
`String`/`List Char`, JS numbers carrying transaction amounts are `ℚ`
(the claims under scrutiny only involve exact decimal values), nullable
values are `Option`, and the sql.js database tables touched by the
pipeline are explicit lists.  Each definition mirrors one function of the
source; line numbers refer to `src/app.js`.
-/

namespace BankApp

/-- ASCII digit character for a digit value `0`–`9`; models the digit
characters produced by JavaScript number-to-string conversion. -/
def digitChar : Nat → Char
  | 0 => '0' | 1 => '1' | 2 => '2' | 3 => '3' | 4 => '4'
  | 5 => '5' | 6 => '6' | 7 => '7' | 8 => '8' | _ => '9'

/-- Numeric value of an ASCII digit character. -/
def digitVal (c : Char) : Nat := c.toNat - 48

/-- Value of a big-endian list of ASCII digit characters (the core of
JavaScript `parseInt(s, 10)` after sign handling). -/
def natOfDigits (ds : List Char) : Nat :=
  ds.foldl (fun a c => 10 * a + digitVal c) 0

/-- Fuel-driven big-endian decimal digit expansion of a natural number. -/
def natToCharsAux : Nat → Nat → List Char
  | 0, _ => []
  | _ + 1, 0 => []
  | fuel + 1, n + 1 => natToCharsAux fuel ((n + 1) / 10) ++ [digitChar ((n + 1) % 10)]

/-- Decimal digit string of a natural number, as JavaScript `String(n)`
prints a non-negative integer-valued number. -/
def natToChars (n : Nat) : List Char :=
  if n = 0 then ['0'] else natToCharsAux n n

/-- Decimal string of an integer, as JavaScript `String(n)` prints an
integer-valued number (a leading `-` for negative values). -/
def intToChars (i : Int) : List Char :=
  if i < 0 then '-' :: natToChars i.natAbs else natToChars i.toNat

/-- JavaScript `s.padStart(2, '0')`. -/
def pad2 (cs : List Char) : List Char :=
  if cs.length < 2 then List.replicate (2 - cs.length) '0' ++ cs else cs

/-- JavaScript `String.prototype.split` with a single-character separator:
`"a-b".split('-') = ["a","b"]`, `"".split('-') = [""]`. -/
def splitOnChar (sep : Char) : List Char → List (List Char)
  | [] => [[]]
  | c :: rest =>
    let r := splitOnChar sep rest
    if c = sep then [] :: r
    else
      match r with
      | [] => [[c]]
      | h :: t => (c :: h) :: t

/-- JavaScript `String.prototype.trim` (whitespace stripped from both
ends; the ASCII whitespace characters suffice for this code base). -/
def trimChars (cs : List Char) : List Char :=
  ((cs.dropWhile Char.isWhitespace).reverse.dropWhile Char.isWhitespace).reverse

/-- Optional leading sign of a JavaScript numeric literal: the sign
factor and the remaining characters. -/
def parseSign (cs : List Char) : Int × List Char :=
  match cs with
  | c :: r => if c = '-' then (-1, r) else if c = '+' then (1, r) else (1, cs)
  | [] => (1, [])

/-- JavaScript `parseInt(s, 10)`: skip leading whitespace, optional sign,
then the longest prefix of decimal digits; `none` models `NaN`. -/
def parseIntL (cs : List Char) : Option Int :=
  let sr := parseSign (cs.dropWhile Char.isWhitespace)
  let ds := sr.2.takeWhile Char.isDigit
  if ds.isEmpty then none else some (sr.1 * (natOfDigits ds : Int))

/-- Exponent part of a JavaScript float literal (after the `e`/`E`):
optional sign then digits; an empty digit run contributes exponent 0
(`parseFloat("1e")` is `1`). -/
def floatExpVal (cs : List Char) : Int :=
  let sr := parseSign cs
  let ds := sr.2.takeWhile Char.isDigit
  if ds.isEmpty then 0 else sr.1 * (natOfDigits ds : Int)

/-- JavaScript `parseFloat`: longest decimal-literal prefix
(`[+-]? digits [. digits] [eE [+-] digits]`); `none` models `NaN`.
(The `Infinity` literal, never produced by CSV amount cells, is not
modeled.)  The value `sign · (ip + fp/10^|fp|) · 10^e` is produced as a
single integer fraction `sign·(ip·10^|fp| + fp) · 10^max(e-|fp|,0) /
10^max(|fp|-e,0)` so that concrete inputs evaluate inside the kernel. -/
def parseFloatL (cs : List Char) : Option ℚ :=
  let sr := parseSign (cs.dropWhile Char.isWhitespace)
  let ip := sr.2.takeWhile Char.isDigit
  let rest1 := sr.2.drop ip.length
  let fr : List Char × List Char :=
    match rest1 with
    | '.' :: r => (r.takeWhile Char.isDigit, r.drop (r.takeWhile Char.isDigit).length)
    | _ => ([], rest1)
  if ip.isEmpty && fr.1.isEmpty then none
  else
    let e : Int :=
      match fr.2 with
      | 'e' :: r3 => floatExpVal r3
      | 'E' :: r3 => floatExpVal r3
      | _ => 0
    let num : Int := sr.1 * (natOfDigits ip * 10 ^ fr.1.length + natOfDigits fr.1)
    let eTot : Int := e - fr.1.length
    some (Rat.divInt (num * 10 ^ eTot.toNat) (10 ^ (-eTot).toNat))

/-- Strip thousands-separator commas, app.js:1354 (`replace(/,/g, '')`). -/
def stripCommas (cs : List Char) : List Char := cs.filter (fun c => c ≠ ',')

/-- The amount parser `parseAmount`, app.js:1352-1356: `null`/`undefined`
yield 0, otherwise strip commas and `parseFloat`, with `|| 0` turning an
unparseable cell (`NaN`) into 0. -/
def parseAmount (v : Option String) : ℚ :=
  match v with
  | none => 0
  | some s => (parseFloatL (stripCommas s.data)).getD 0

/-- Month-abbreviation table of `normalizeDate`, app.js:1287. -/
def monthNum (cs : List Char) : Option Nat :=
  if cs = "jan".data then some 1
  else if cs = "feb".data then some 2
  else if cs = "mar".data then some 3
  else if cs = "apr".data then some 4
  else if cs = "may".data then some 5
  else if cs = "jun".data then some 6
  else if cs = "jul".data then some 7
  else if cs = "aug".data then some 8
  else if cs = "sep".data then some 9
  else if cs = "oct".data then some 10
  else if cs = "nov".data then some 11
  else if cs = "dec".data then some 12
  else none

/-- The `DD-Mon-YY` / `DD-Mon-YYYY` branch of `normalizeDate`,
app.js:1293-1302 (also reused by auto-detect, app.js:1329-1338): the
anchored regex `^(\d{1,2})-([A-Za-z]{3})-(\d{2,4})$` followed by the
month-table lookup and the two-digit-year pivot.  Returns
`(year, month, day)`; `none` when the regex or the month lookup fails. -/
def parseMon (s : List Char) : Option (Int × Int × Int) :=
  let ds := s.takeWhile Char.isDigit
  if ds.length = 0 ∨ 2 < ds.length then none
  else
    match s.drop ds.length with
    | '-' :: r1 =>
      let al := r1.takeWhile Char.isAlpha
      if al.length ≠ 3 then none
      else
        match r1.drop 3 with
        | '-' :: r2 =>
          let ys := r2.takeWhile Char.isDigit
          if ys.length = r2.length ∧ 2 ≤ ys.length ∧ ys.length ≤ 4 then
            match monthNum (al.map Char.toLower) with
            | none => none
            | some m =>
              let y0 := natOfDigits ys
              let y : Int := if y0 < 100 then (if y0 < 50 then 2000 + y0 else 1900 + y0) else (y0 : Int)
              some (y, (m : Int), (natOfDigits ds : Int))
          else none
        | _ => none
    | _ => none

/-- The `fmt.forEach` token-assignment loop of `normalizeDate`,
app.js:1310-1316: walk the format tokens with their index, look up the
corresponding part of the input, and overwrite the day/month/year
accumulators (`none` models both `undefined` and `NaN`, all falsy). -/
def tokenAssign (parts : List (List Char)) :
    List (List Char) → Nat → Option Int → Option Int → Option Int →
    Option Int × Option Int × Option Int
  | [], _, d, m, y => (d, m, y)
  | tok :: rest, i, d, m, y =>
    let val := (parts.get? i).bind parseIntL
    if tok = "DD".data then tokenAssign parts rest (i + 1) val m y
    else if tok = "MM".data then tokenAssign parts rest (i + 1) d val y
    else if tok = "YYYY".data then tokenAssign parts rest (i + 1) d m val
    else if tok = "YY".data then
      tokenAssign parts rest (i + 1) d m
        (val.map fun v => if v < 50 then 2000 + v else 1900 + v)
    else tokenAssign parts rest (i + 1) d m y

/-- The separator-token branch of `normalizeDate`, app.js:1304-1321:
choose `/` or `-` as separator, split input and format, require exactly
three parts, run the token assignment, and reject when any of
day/month/year is missing, `NaN` or zero (the `!day || !month || !year`
truthiness test). -/
def parseTokens (s : List Char) (format : String) : Option (Int × Int × Int) :=
  let sep := if format.data.contains '/' then '/' else '-'
  let parts := splitOnChar sep s
  if parts.length ≠ 3 then none
  else
    match tokenAssign parts (splitOnChar sep format.data) 0 none none none with
    | (some d, some m, some y) =>
      if d ≠ 0 ∧ m ≠ 0 ∧ y ≠ 0 then some (y, m, d) else none
    | _ => none

/-- The explicit-format part of `normalizeDate` (both branches of
app.js:1290-1322), producing the `(year, month, day)` components the
function will render. -/
def explicitParse (s : List Char) (format : String) : Option (Int × Int × Int) :=
  if format = "DD-Mon-YY" ∨ format = "DD-Mon-YYYY" then parseMon s else parseTokens s format

/-- The output template of `normalizeDate`, app.js:1301/1319-1321/1343-1345:
the year as printed by JavaScript, and month/day padded with
`padStart(2, '0')`, joined by `-`. -/
def renderDate (y m d : Int) : List Char :=
  intToChars y ++ '-' :: (pad2 (intToChars m) ++ '-' :: pad2 (intToChars d))

/-- The ISO-prefix auto-detect test of `normalizeDate`, app.js:1325-1326:
regex `^(\d{4})-(\d{2})-(\d{2})`, returning the matched characters
verbatim. -/
def isoMatch (s : List Char) : Option (List Char) :=
  match s with
  | a :: b :: c :: d :: '-' :: e :: f :: '-' :: g :: h :: _ =>
    if a.isDigit && b.isDigit && c.isDigit && d.isDigit &&
       e.isDigit && f.isDigit && g.isDigit && h.isDigit then
      some [a, b, c, d, '-', e, f, '-', g, h]
    else none
  | _ => none

/-- The Date Normalizer `normalizeDate(dateStr, format)`, app.js:1283-1348.
The browser's `new Date(s)` fallback of the auto-detect branch
(app.js:1341-1346) is implementation-defined (spec §9 calls it
non-portable), so it is taken as a parameter `jsd` giving the local
calendar fields `(getFullYear, getMonth()+1, getDate)` or `none` for an
invalid date; every theorem below holds for an arbitrary `jsd`. -/
def normalizeDate (jsd : String → Option (Int × Int × Int))
    (dateStr format : String) : Option String :=
  if dateStr = "" then none
  else
    let s := trimChars dateStr.data
    if format ≠ "" ∧ format ≠ "auto" then
      (explicitParse s format).map fun t => String.mk (renderDate t.1 t.2.1 t.2.2)
    else
      match isoMatch s with
      | some r => some (String.mk r)
      | none =>
        match parseMon s with
        | some t => some (String.mk (renderDate t.1 t.2.1 t.2.2))
        | none => (jsd (String.mk s)).map fun t => String.mk (renderDate t.1 t.2.1 t.2.2)

/-- A browser date fallback that accepts nothing; used only to
instantiate closed statements whose evaluation never reaches the
fallback. -/
def jsdNone : String → Option (Int × Int × Int) := fun _ => none

/-- A parsed CSV row, as produced by `Papa.parse` (app.js:872-875): an
object keyed by header names when the profile has a header, otherwise an
array of cell strings.  `processUploadedFiles` always parses with
`header: profile.hasHeader !== false`, so the row shape matches the
profile's mode; cross-mode access (a name lookup on an array row) yields
`undefined`. -/
inductive RawRow
  | obj (cells : List (String × String))
  | arr (cells : List String)
deriving DecidableEq

/-- A Bank Profile as loaded by `loadBankProfiles` (app.js:3475-3492):
`hasHeader` is the boolean `row[2] === 1`; the column references are
strings; `amount_column`, `credit_column` and `debit_column` default to
`''` in the schema (app.js:314-316) and may be SQL `NULL`, so they are
`Option String` with `none` for `null`/`undefined` and `some ""` for the
empty default — both falsy in the JavaScript configuration tests. -/
structure BankProfile where
  hasHeader : Bool
  dateColumn : String
  descriptionColumn : String
  amountColumn : Option String
  creditColumn : Option String
  debitColumn : Option String
  dateFormat : String
deriving DecidableEq

/-- The transaction record built by `mapTransaction` (app.js:989-995). -/
structure Txn where
  import_id : Nat
  date : Option String
  description : String
  amount : ℚ
  category : String
deriving DecidableEq

/-- JavaScript truthiness of an optional string: `undefined`, `null` and
`''` are falsy. -/
def truthyOpt (o : Option String) : Bool :=
  match o with
  | some s => s != ""
  | none => false

/-- JavaScript `a || b` on strings. -/
def jsOrS (a b : String) : String := if a = "" then b else a

/-- The blank-cell test of app.js:957/982:
`raw === undefined || raw === null || String(raw).trim() === ''`. -/
def blankCell (o : Option String) : Bool :=
  match o with
  | none => true
  | some s => trimChars s.data == []

/-- JavaScript property lookup `row[key]` on a header-mode row object. -/
def objGet (cells : List (String × String)) (key : String) : Option String :=
  (cells.find? (fun p => p.1 == key)).map (fun p => p.2)

/-- JavaScript index lookup `row[i]` on an array row where `i` came from
`parseInt`: `NaN`, negative, and out-of-range indices give `undefined`. -/
def arrGet (cells : List String) (i : Option Int) : Option String :=
  match i with
  | some k => if k < 0 then none else cells.get? k.toNat
  | none => none

/-- Header-mode cell access `row[ref]`. -/
def lookupName (row : RawRow) (key : String) : Option String :=
  match row with
  | .obj cells => objGet cells key
  | .arr _ => none

/-- Headerless cell access `row[parseInt(ref)]`. -/
def lookupIdx (row : RawRow) (ref : String) : Option String :=
  match row with
  | .arr cells => arrGet cells (parseIntL ref.data)
  | .obj _ => none

/-- Cell access in the mode selected by `profile.hasHeader`.  The source
duplicates the whole mapping logic per mode (app.js:935-985) with
`row[col]` versus `row[parseInt(col)]` as the only difference; the
embedding factors that difference here. -/
def modeGet (p : BankProfile) (row : RawRow) (ref : String) : Option String :=
  if p.hasHeader then lookupName row ref else lookupIdx row ref

/-- Cell access through an optional column reference (`row[profile.amountColumn]`
where the reference itself may be `null`/`undefined`). -/
def optRefGet (p : BankProfile) (row : RawRow) (ref : Option String) : Option String :=
  match ref with
  | none => none
  | some c => modeGet p row c

/-- The stub `categorizeTransaction` (app.js:1358-1364): always
`"Uncategorized"`. -/
def categorizeTransaction (description : Option String) : String := "Uncategorized"

/-- The Column Mapper `mapTransaction(row, profile, importId, dateFormat)`,
app.js:931-996.  Returns `none` for the two `return null` early exits
(blank single-amount cell, app.js:957/982; falsy raw date, app.js:987);
otherwise the built record, whose `date` field is the `normalizeDate`
result and may be `none`. -/
def mapTransaction (jsd : String → Option (Int × Int × Int)) (row : RawRow)
    (profile : BankProfile) (importId : Nat) (dateFormat : String) : Option Txn :=
  let date := modeGet profile row profile.dateColumn
  let description : Option String :=
    if profile.descriptionColumn.data.contains ',' then
      some (String.intercalate " "
        (((splitOnChar ',' profile.descriptionColumn.data).map trimChars).filterMap fun col =>
          match modeGet profile row (String.mk col) with
          | some v => if trimChars v.data = [] then none else some v
          | none => none))
    else modeGet profile row profile.descriptionColumn
  let amountRes : Option ℚ :=
    if truthyOpt profile.creditColumn && truthyOpt profile.debitColumn then
      some (parseAmount (optRefGet profile row profile.creditColumn) -
            parseAmount (optRefGet profile row profile.debitColumn))
    else
      let raw := optRefGet profile row profile.amountColumn
      if blankCell raw then none else some (parseAmount raw)
  match amountRes with
  | none => none
  | some amount =>
    if truthyOpt date then
      some { import_id := importId
             date := normalizeDate jsd (date.getD "") (jsOrS dateFormat profile.dateFormat)
             description := description.getD ""
             amount := amount
             category := categorizeTransaction description }
    else none

/-- The per-file row loop of `processUploadedFiles`, app.js:877-885,
combined with `insertTransaction` (app.js:1375-1401): every truthy
`mapTransaction` result is counted (`fileImported++`), and the insert
stores a row exactly when `date` is non-null — the schema declares
`date TEXT NOT NULL` (app.js:385) and `safeRun` swallows the constraint
violation (app.js:75-83).  Returns (stored transactions, counted
counted imports).  The Rule-Engine resolution that `insertTransaction` also
performs is modeled separately (`applyTransactionRules` below); it does
not affect which rows are stored or counted. -/
def processRows (jsd : String → Option (Int × Int × Int)) (rows : List RawRow)
    (profile : BankProfile) (dateFormat : String) (importId : Nat) : List Txn × Nat :=
  rows.foldl
    (fun acc row =>
      match mapTransaction jsd row profile importId dateFormat with
      | some t => (if t.date.isSome then acc.1 ++ [t] else acc.1, acc.2 + 1)
      | none => acc)
    ([], 0)

/-- Test profile from the spec's end-to-end example (§8). -/
def profileE2E : BankProfile :=
  { hasHeader := false
    dateColumn := "0"
    descriptionColumn := "1"
    amountColumn := some "2"
    creditColumn := some ""
    debitColumn := some ""
    dateFormat := "DD/MM/YYYY" }

/-- A transaction rule as read by `applyTransactionRules` (app.js:1413-1419):
`keyword`, `action`, the joined category name (`null` when `category_value`
is null or dangling), and `case_sensitive`, for rows of `transaction_rules`
(schema app.js:354-368) with their integer `id` and `priority`. -/
structure Rule where
  id : Nat
  keyword : String
  action : String
  category : Option String
  caseSensitive : Bool
  priority : Int
  enabled : Bool
deriving DecidableEq

/-- The ordering `ORDER BY tr.priority DESC, tr.id ASC` of app.js:1418. -/
def ruleLE (a b : Rule) : Prop :=
  b.priority < a.priority ∨ (a.priority = b.priority ∧ a.id ≤ b.id)

instance : DecidableRel ruleLE := fun a b => by
  unfold ruleLE
  infer_instance

instance : IsTotal Rule ruleLE := by
  constructor
  intro a b
  unfold ruleLE
  omega

instance : IsTrans Rule ruleLE := by
  constructor
  intro a b c hab hbc
  unfold ruleLE at *
  omega

/-- The rule list the scan of `applyTransactionRules` walks: the SQL query
of app.js:1413-1419 keeps `enabled = 1` rows ordered by `priority DESC,
id ASC`.  With distinct ids this ordering determines the sequence uniquely
(proved below), so any correct sort models the database's `ORDER BY`. -/
def sortRules (rules : List Rule) : List Rule :=
  List.insertionSort ruleLE (rules.filter (fun r => r.enabled))

/-- JavaScript regex `\w`: `[A-Za-z0-9_]`. -/
def isWordChar (c : Char) : Bool := c.isAlphanum || c == '_'

/-- Case canonicalization: the `i` regex flag (app.js:1441-1442) makes the
match case-insensitive, equivalent to lowercasing keyword and
description. -/
def canon (caseSensitive : Bool) (cs : List Char) : List Char :=
  if caseSensitive then cs else cs.map Char.toLower

/-- Occurrence test at one position for the word-boundary pattern
`(^|[^\w])kw([^\w]|$)` of app.js:1440-1442 (the keyword is
metacharacter-escaped, so it matches literally): the keyword occurs at
`i` and each side is a string end or a non-word character. -/
def wbAt (kw desc : List Char) (i : Nat) : Bool :=
  kw.isPrefixOf (desc.drop i) &&
  (decide (i = 0) || !isWordChar (desc.getD (i - 1) ' ')) &&
  (decide (desc.length ≤ i + kw.length) || !isWordChar (desc.getD (i + kw.length) ' '))

/-- RegExp `.test`: some position of the description carries a flanked
occurrence of the keyword. -/
def wordBoundaryMatch (kw desc : List Char) : Bool :=
  (List.range (desc.length + 1)).any (fun i => wbAt kw desc i)

/-- The per-rule match test `pattern.test(description)` of app.js:1440-1444. -/
def ruleMatches (r : Rule) (description : String) : Bool :=
  wordBoundaryMatch (canon r.caseSensitive r.keyword.data) (canon r.caseSensitive description.data)

/-- One step of the rule loop body, app.js:1444-1451: state is
(`ignoreRuleMatched`, `categoryRuleMatched`, `category`).  In the source
`shouldIgnore` and `ignoreRuleMatched` are set together and both start
false, so a single boolean models both. -/
def ruleStep (description : String) (r : Rule) (st : Bool × Bool × String) :
    Bool × Bool × String :=
  if ruleMatches r description then
    if r.action = "ignore" ∧ st.1 = false then (true, st.2.1, st.2.2)
    else if r.action = "categorize" ∧ st.2.1 = false ∧ truthyOpt r.category then
      (st.1, true, r.category.getD "")
    else st
  else st

/-- The rule loop of app.js:1432-1458 with its early `break` once both
slots are filled (app.js:1453-1456). -/
def ruleScan (description : String) :
    List Rule → Bool → Bool → String → Bool × String
  | [], ignoreMatched, _, category => (ignoreMatched, category)
  | r :: rest, ignoreMatched, categoryMatched, category =>
    let st := ruleStep description r (ignoreMatched, categoryMatched, category)
    if st.1 ∧ st.2.1 then (st.1, st.2.2)
    else ruleScan description rest st.1 st.2.1 st.2.2

/-- The same loop without the early `break`, used to state that stopping
early does not change the result. -/
def ruleScanFull (description : String) :
    List Rule → Bool → Bool → String → Bool × String
  | [], ignoreMatched, _, category => (ignoreMatched, category)
  | r :: rest, ignoreMatched, categoryMatched, category =>
    let st := ruleStep description r (ignoreMatched, categoryMatched, category)
    ruleScanFull description rest st.1 st.2.1 st.2.2

/-- JavaScript `o || b` where `o` is a nullable string. -/
def jsOrOpt (o : Option String) (b : String) : String :=
  match o with
  | some s => if s = "" then b else s
  | none => b

/-- The Rule Engine `applyTransactionRules(description, defaultCategory)`,
app.js:1403-1465, with the database's enabled/ordered rule list passed
explicitly.  Returns `(shouldIgnore, category)`. -/
def applyTransactionRules (rules : List Rule) (description : String)
    (defaultCategory : Option String) : Bool × String :=
  let fallbackCategory := jsOrOpt defaultCategory "Uncategorized"
  if description = "" then (false, fallbackCategory)
  else ruleScan description (sortRules rules) false false fallbackCategory

/-- The Rule Engine run without the early break of app.js:1453-1456. -/
def applyTransactionRulesFull (rules : List Rule) (description : String)
    (defaultCategory : Option String) : Bool × String :=
  let fallbackCategory := jsOrOpt defaultCategory "Uncategorized"
  if description = "" then (false, fallbackCategory)
  else ruleScanFull description (sortRules rules) false false fallbackCategory

/-- A stored transaction as read by `applyRulesToExisting`
(app.js:4305-4315): id, description (nullable), current category name
(nullable, via the LEFT JOIN), ignored flag, and the `manual_category`
flag. -/
structure StoredTxn where
  id : Nat
  description : Option String
  category : Option String
  ignored : Bool
  manualCategory : Bool
deriving DecidableEq

/-- The observable outcome of `applyRulesToExisting`: the updated
transactions table (in order) and the three message counters. -/
structure BulkResult where
  txns : List StoredTxn
  ignoredCount : Nat
  categorizedCount : Nat
  skippedManual : Nat
deriving DecidableEq

/-- The per-transaction update of `applyRulesToExisting`,
app.js:4323-4337: apply the Rule Engine with the current category name as
default; set `ignored` when an ignore rule matched (never cleared);
change the category only when the resolved name differs from the current
one and exists in the `categories` catalog. -/
def bulkRuleStep (rules : List Rule) (cats : List String) (t : StoredTxn) : StoredTxn :=
  let ruleResult := applyTransactionRules rules (t.description.getD "") t.category
  let t1 := if ruleResult.1 then { t with ignored := true } else t
  if (some ruleResult.2 != t.category) && cats.contains ruleResult.2 then
    { t1 with category := some ruleResult.2 }
  else t1

/-- One iteration of the `transResult[0].values.forEach` loop of
`applyRulesToExisting`, app.js:4311-4338, acting on the accumulated
table state and counters. -/
def bulkBody (rules : List Rule) (cats : List String) (acc : BulkResult)
    (t : StoredTxn) : BulkResult :=
  if t.manualCategory then
    { acc with txns := acc.txns ++ [t], skippedManual := acc.skippedManual + 1 }
  else
    let ruleResult := applyTransactionRules rules (t.description.getD "") t.category
    { txns := acc.txns ++ [bulkRuleStep rules cats t]
      ignoredCount := if ruleResult.1 then acc.ignoredCount + 1 else acc.ignoredCount
      categorizedCount :=
        if (some ruleResult.2 != t.category) && cats.contains ruleResult.2 then
          acc.categorizedCount + 1
        else acc.categorizedCount
      skippedManual := acc.skippedManual }

/-- The bulk re-categorization `applyRulesToExisting`, app.js:4290-4359:
abort when no enabled rule exists (app.js:4294-4298); otherwise walk the
transactions in order, skipping any with `manual_category = 1` before the
Rule Engine is consulted (app.js:4318-4321), updating the rest. -/
def applyRulesToExisting (rules : List Rule) (cats : List String)
    (txns : List StoredTxn) : BulkResult :=
  if (rules.filter (fun r => r.enabled)).isEmpty then
    { txns := txns, ignoredCount := 0, categorizedCount := 0, skippedManual := 0 }
  else
    txns.foldl (bulkBody rules cats)
      { txns := [], ignoredCount := 0, categorizedCount := 0, skippedManual := 0 }

/-- The explicit date-format vocabulary of the configuration UI (spec §6),
i.e. every selectable `dateFormat` other than `auto`. -/
def explicitFormatList : List String :=
  ["YYYY-MM-DD", "DD/MM/YYYY", "MM/DD/YYYY", "DD-MM-YYYY", "MM-DD-YYYY",
   "DD/MM/YY", "MM/DD/YY", "DD-Mon-YY", "DD-Mon-YYYY"]

/-- A flanked occurrence of the keyword at position `i` of the
description: the statement-level reading of the word-boundary regex
`(^|[^\w])kw([^\w]|$)`. -/
def FlankedOccurrenceAt (kw desc : List Char) (i : Nat) : Prop :=
  kw <+: desc.drop i ∧
  (i = 0 ∨ isWordChar (desc.getD (i - 1) ' ') = false) ∧
  (desc.length ≤ i + kw.length ∨ isWordChar (desc.getD (i + kw.length) ' ') = false)

/-- A well-formed headerless row under `profileE2E`. -/
def rowOk : RawRow := RawRow.arr ["15/01/2024", "X", "5"]

/-- A row whose single-amount cell is blank (rejected by the mapper). -/
def rowBlankAmount : RawRow := RawRow.arr ["16/01/2024", "Y", ""]

/-- A row whose raw date cell is non-empty but unparseable. -/
def rowBadDate : RawRow := RawRow.arr ["notadate", "X", "5"]

/-- A headerless credit/debit profile: date 0, description 1, credit 2,
debit 3. -/
def pairedProfile : BankProfile :=
  { hasHeader := false
    dateColumn := "0"
    descriptionColumn := "1"
    amountColumn := none
    creditColumn := some "2"
    debitColumn := some "3"
    dateFormat := "DD/MM/YYYY" }

/-- A profile with no amount configuration at all: no single amount
column and no complete credit/debit pair (credit is the schema's empty
default). -/
def noAmountProfile : BankProfile :=
  { hasHeader := false
    dateColumn := "0"
    descriptionColumn := "1"
    amountColumn := none
    creditColumn := some ""
    debitColumn := none
    dateFormat := "DD/MM/YYYY" }

/-- Modelled from the spec: §3 amount resolution for credit/debit pairs,
"amount = credit − debit; both read as unsigned magnitudes before
subtraction".  This is the spec-side comparison definition; the source's
`parseAmount` (app.js:1352-1356) keeps the sign. -/
def magnitudeAmount (credit debit : Option String) : ℚ :=
  |parseAmount credit| - |parseAmount debit|

/-- A paired-column row whose credit cell is blank and whose debit cell
carries an explicit minus sign. -/
def rowSignedDebit : RawRow := RawRow.arr ["15/01/2024", "X", "", "-30"]

/-- An enabled categorize rule used by the C5 witness. -/
def ruleFee : Rule :=
  { id := 1, keyword := "FEE", action := "categorize", category := some "Fees",
    caseSensitive := false, priority := 0, enabled := true }

/-- A stored transaction carrying a manual category override. -/
def txnManual : StoredTxn :=
  { id := 1, description := some "FEE MANUAL", category := some "Keep",
    ignored := false, manualCategory := true }

/-- A stored transaction without a manual override. -/
def txnAuto : StoredTxn :=
  { id := 2, description := some "FEE AUTO", category := none,
    ignored := false, manualCategory := false }

/-- Rules exercising the word-boundary matcher in the C6 statement. -/
def ruleCAT : Rule :=
  { id := 1, keyword := "CAT", action := "categorize", category := some "Pets",
    caseSensitive := false, priority := 0, enabled := true }

/-- Lower-case keyword, case-insensitive. -/
def ruleCatLower : Rule :=
  { ruleCAT with keyword := "cat" }

/-- Lower-case keyword with the caseSensitive flag set. -/
def ruleCatLowerCS : Rule :=
  { ruleCAT with keyword := "cat", caseSensitive := true }

/-- The lower-priority categorize rule of the C8 witness. -/
def ruleP5 : Rule :=
  { id := 1, keyword := "STORE", action := "categorize", category := some "Low",
    caseSensitive := false, priority := 5, enabled := true }

/-- The higher-priority categorize rule of the C8 witness. -/
def ruleP10 : Rule :=
  { id := 2, keyword := "STORE", action := "categorize", category := some "High",
    caseSensitive := false, priority := 10, enabled := true }

example : normalizeDate jsdNone "16-Feb-26" "DD-Mon-YY" = some "2026-02-16" := by decide

example : normalizeDate jsdNone "16-Feb-26" "auto" = some "2026-02-16" := by decide

example : normalizeDate jsdNone "01/01/50" "MM/DD/YY" = some "1950-01-01" := by decide

example : normalizeDate jsdNone "01/01/49" "MM/DD/YY" = some "2049-01-01" := by decide

example : normalizeDate jsdNone "2024-01-15T00:00:00Z" "auto" = some "2024-01-15" := by decide

example : normalizeDate jsdNone "not-a-date" "YYYY-MM-DD" = none := by decide

example : normalizeDate jsdNone "15/01/2024" "DD/MM/YYYY" = some "2024-01-15" := by decide

example : parseIntL "12x".data = some 12 := by decide

example : parseFloatL "3142.50".data = some (mkRat 6285 2) := by decide

example : parseAmount (some "3,142.50") = mkRat 6285 2 := by decide

example : parseAmount (some "-30") = -30 := by decide

example : parseAmount (some "") = 0 := by decide

example : parseAmount (some "abc") = 0 := by decide

example : parseFloatL "1e2".data = some 100 := by decide

example :
    processRows jsdNone
      [RawRow.arr ["15/01/2024", "GROCERY MART", "-45.20"],
       RawRow.arr ["16/01/2024", "SALARY", "2000.00"],
       RawRow.arr ["", "", ""]]
      profileE2E "DD/MM/YYYY" 1 =
    ([{ import_id := 1, date := some "2024-01-15", description := "GROCERY MART",
        amount := mkRat (-226) 5, category := "Uncategorized" },
      { import_id := 1, date := some "2024-01-16", description := "SALARY",
        amount := 2000, category := "Uncategorized" }], 2) := by decide

example :
    ruleMatches { id := 1, keyword := "CAT", action := "categorize", category := some "Pets",
                  caseSensitive := false, priority := 0, enabled := true } "CATALOG PURCHASE"
      = false := by decide

example :
    ruleMatches { id := 1, keyword := "CAT", action := "categorize", category := some "Pets",
                  caseSensitive := false, priority := 0, enabled := true } "CAT FOOD"
      = true := by decide

example :
    applyTransactionRules
      [{ id := 1, keyword := "FEE", action := "ignore", category := none,
         caseSensitive := false, priority := 0, enabled := true },
       { id := 2, keyword := "FEE", action := "categorize", category := some "Fees",
         caseSensitive := false, priority := 0, enabled := true }]
      "FEE CHARGED" none = (true, "Fees") := by decide

example :
    applyTransactionRules
      [{ id := 1, keyword := "STORE", action := "categorize", category := some "Low",
         caseSensitive := false, priority := 5, enabled := true },
       { id := 2, keyword := "STORE", action := "categorize", category := some "High",
         caseSensitive := false, priority := 10, enabled := true }]
      "STORE VISIT" none = (false, "High") := by decide

/-! Helper lemmas about the import loop. -/

theorem processRows_spec (jsd : String → Option (Int × Int × Int)) (p : BankProfile)
    (fmt : String) (importId : Nat) (rows : List RawRow) :
    processRows jsd rows p fmt importId =
      ((rows.filterMap fun row => mapTransaction jsd row p importId fmt).filter
          (fun t => t.date.isSome),
        (rows.filterMap fun row => mapTransaction jsd row p importId fmt).length) := by
  suffices h : ∀ (rows : List RawRow) (acc : List Txn × Nat),
      List.foldl
        (fun acc row =>
          match mapTransaction jsd row p importId fmt with
          | some t => (if t.date.isSome then acc.1 ++ [t] else acc.1, acc.2 + 1)
          | none => acc) acc rows =
      (acc.1 ++ (rows.filterMap fun row => mapTransaction jsd row p importId fmt).filter
          (fun t => t.date.isSome),
        acc.2 + (rows.filterMap fun row => mapTransaction jsd row p importId fmt).length) by
    simpa [processRows] using h rows ([], 0)
  intro rows
  induction rows with
  | nil => intro acc; simp
  | cons r rs ih =>
    intro acc
    simp only [List.foldl_cons, List.filterMap_cons]
    cases h : mapTransaction jsd r p importId fmt with
    | none => simpa using ih acc
    | some t =>
      cases ht : t.date.isSome with
      | false =>
        simpa [List.filter_cons, ht, Nat.add_comm, Nat.add_assoc, Nat.add_left_comm]
          using ih (acc.1, acc.2 + 1)
      | true =>
        simpa [List.filter_cons, ht, List.append_assoc,
               Nat.add_comm, Nat.add_assoc, Nat.add_left_comm]
          using ih (acc.1 ++ [t], acc.2 + 1)

/-! Helper lemmas about the bulk re-categorization loop. -/

theorem bulkBody_txns (rules : List Rule) (cats : List String) :
    ∀ (txns : List StoredTxn) (acc : BulkResult),
      (txns.foldl (bulkBody rules cats) acc).txns =
        acc.txns ++ txns.map (fun t => if t.manualCategory then t else bulkRuleStep rules cats t) := by
  intro txns
  induction txns with
  | nil => intro acc; simp
  | cons t ts ih =>
    intro acc
    cases hm : t.manualCategory with
    | true =>
      simpa [bulkBody, hm, List.append_assoc] using ih (bulkBody rules cats acc t)
    | false =>
      simpa [bulkBody, hm, List.append_assoc] using ih (bulkBody rules cats acc t)

theorem bulkBody_skipped (rules : List Rule) (cats : List String) :
    ∀ (txns : List StoredTxn) (acc : BulkResult),
      (txns.foldl (bulkBody rules cats) acc).skippedManual =
        acc.skippedManual + (txns.filter (fun t => t.manualCategory)).length := by
  intro txns
  induction txns with
  | nil => intro acc; simp
  | cons t ts ih =>
    intro acc
    cases hm : t.manualCategory with
    | true =>
      have := ih (bulkBody rules cats acc t)
      simp only [List.foldl_cons] at *
      rw [this]
      simp [bulkBody, hm, List.filter_cons, Nat.add_comm, Nat.add_assoc, Nat.add_left_comm]
    | false =>
      have := ih (bulkBody rules cats acc t)
      simp only [List.foldl_cons] at *
      rw [this]
      simp [bulkBody, hm, List.filter_cons]

/-! Helper lemmas about the rule scan. -/

theorem ruleScanFull_frozen (description : String) :
    ∀ (l : List Rule) (category : String),
      ruleScanFull description l true true category = (true, category) := by
  intro l
  induction l with
  | nil => intro category; rfl
  | cons r rest ih =>
    intro category
    simp [ruleScanFull, ruleStep, ih]

theorem ruleScan_eq_full (description : String) :
    ∀ (l : List Rule) (ign catM : Bool) (category : String),
      ruleScan description l ign catM category =
        ruleScanFull description l ign catM category := by
  intro l
  induction l with
  | nil => intro ign catM category; rfl
  | cons r rest ih =>
    intro ign catM category
    simp only [ruleScan, ruleScanFull]
    by_cases h : (ruleStep description r (ign, catM, category)).1 = true ∧
        (ruleStep description r (ign, catM, category)).2.1 = true
    · rw [if_pos ⟨h.1, h.2⟩, h.1, h.2, ruleScanFull_frozen]
    · rw [if_neg (by tauto), ih]

theorem ruleScanFull_fst (description : String) :
    ∀ (l : List Rule) (ign catM : Bool) (category : String),
      (ruleScanFull description l ign catM category).1 =
        (ign || l.any fun r => decide (r.action = "ignore") && ruleMatches r description) := by
  intro l
  induction l with
  | nil => intro ign catM category; simp [ruleScanFull]
  | cons r rest ih =>
    intro ign catM category
    simp only [ruleScanFull, List.any_cons]
    rw [ih]
    by_cases hm : ruleMatches r description
    · by_cases hi : r.action = "ignore"
      · cases ign <;> simp [ruleStep, hm, hi, Bool.or_assoc]
      · by_cases hc : r.action = "categorize" ∧ catM = false ∧ truthyOpt r.category = true
        · simp [ruleStep, hm, hi, hc.1, hc.2.1, hc.2.2]
        · cases ign <;> simp [ruleStep, hm, hi] <;> split <;> simp
    · simp [ruleStep, hm]

theorem ruleScanFull_snd_frozen (description : String) :
    ∀ (l : List Rule) (ign : Bool) (category : String),
      (ruleScanFull description l ign true category).2 = category := by
  intro l
  induction l with
  | nil => intro ign category; rfl
  | cons r rest ih =>
    intro ign category
    simp only [ruleScanFull]
    by_cases hm : ruleMatches r description
    · by_cases hi : r.action = "ignore" ∧ ign = false
      · simp [ruleStep, hm, hi.1, hi.2, ih]
      · have : ruleStep description r (ign, true, category) = (ign, true, category) := by
          simp [ruleStep, hm]
          intro h1 h2
          tauto
        rw [this, ih]
    · simp [ruleStep, hm, ih]

theorem ruleScanFull_snd (description : String) :
    ∀ (l : List Rule) (ign : Bool) (category : String),
      (ruleScanFull description l ign false category).2 =
        (((l.find? fun r => decide (r.action = "categorize") && truthyOpt r.category &&
            ruleMatches r description).map (fun r => r.category.getD "")).getD category) := by
  intro l
  induction l with
  | nil => intro ign category; rfl
  | cons r rest ih =>
    intro ign category
    simp only [ruleScanFull, List.find?_cons]
    cases hp : (decide (r.action = "categorize") && truthyOpt r.category &&
        ruleMatches r description) with
    | true =>
      have h3 := hp
      simp only [Bool.and_eq_true, decide_eq_true_eq] at h3
      have hni : ¬(r.action = "ignore") := by rw [h3.1.1]; decide
      have hstep : ruleStep description r (ign, false, category) =
          (ign, true, r.category.getD "") := by
        simp [ruleStep, h3.2, hni, h3.1.1, h3.1.2]
      rw [hstep, ruleScanFull_snd_frozen]
      rfl
    | false =>
      by_cases hm : ruleMatches r description = true
      · by_cases hi : r.action = "ignore" ∧ ign = false
        · have hstep : ruleStep description r (ign, false, category) =
              (true, false, category) := by
            simp [ruleStep, hm, hi.1, hi.2]
          rw [hstep]
          exact ih true category
        · have hnc : ¬(r.action = "categorize" ∧ truthyOpt r.category = true) := by
            rintro ⟨h1, h2⟩
            simp [h1, h2, hm] at hp
          have hstep : ruleStep description r (ign, false, category) =
              (ign, false, category) := by
            simp only [ruleStep]
            rw [if_pos hm, if_neg hi, if_neg (fun h => hnc ⟨h.1, h.2.2⟩)]
          rw [hstep]
          exact ih ign category
      · have hstep : ruleStep description r (ign, false, category) =
            (ign, false, category) := by
          simp [ruleStep, hm]
        rw [hstep]
        exact ih ign category

/-! Helper lemmas about decimal digit strings, used for the date
round-trip property. -/

theorem digitChar_isDigit (d : Nat) (h : d < 10) : (digitChar d).isDigit = true := by
  interval_cases d <;> decide

theorem digitVal_digitChar (d : Nat) (h : d < 10) : digitVal (digitChar d) = d := by
  interval_cases d <;> decide

theorem natToCharsAux_digits :
    ∀ (fuel n : Nat), ∀ c ∈ natToCharsAux fuel n, c.isDigit = true := by
  intro fuel
  induction fuel with
  | zero =>
    intro n c hc
    simp [natToCharsAux] at hc
  | succ f ih =>
    intro n c hc
    cases n with
    | zero => simp [natToCharsAux] at hc
    | succ m =>
      simp only [natToCharsAux, List.mem_append, List.mem_singleton] at hc
      rcases hc with hc | hc
      · exact ih _ _ hc
      · subst hc
        exact digitChar_isDigit _ (Nat.mod_lt _ (by omega))

theorem natToChars_digits (n : Nat) : ∀ c ∈ natToChars n, c.isDigit = true := by
  intro c hc
  unfold natToChars at hc
  by_cases h : n = 0
  · rw [if_pos h] at hc
    simp at hc
    subst hc
    decide
  · rw [if_neg h] at hc
    exact natToCharsAux_digits n n c hc

theorem natToChars_ne_nil (n : Nat) : natToChars n ≠ [] := by
  unfold natToChars
  by_cases h : n = 0
  · rw [if_pos h]; simp
  · rw [if_neg h]
    cases n with
    | zero => exact absurd rfl h
    | succ m => simp [natToCharsAux]

theorem natToCharsAux_val :
    ∀ (fuel n : Nat), n ≤ fuel → ∀ (a : Nat),
      List.foldl (fun a c => 10 * a + digitVal c) a (natToCharsAux fuel n) =
        a * 10 ^ (natToCharsAux fuel n).length + n := by
  intro fuel
  induction fuel with
  | zero =>
    intro n hn a
    interval_cases n
    simp [natToCharsAux]
  | succ f ih =>
    intro n hn a
    cases n with
    | zero => simp [natToCharsAux]
    | succ m =>
      have hdiv : (m + 1) / 10 ≤ f := by
        have := Nat.div_lt_self (Nat.succ_pos m) (by omega : 1 < 10)
        omega
      simp only [natToCharsAux, List.foldl_append, List.foldl_cons, List.foldl_nil,
        List.length_append, List.length_cons, List.length_nil]
      rw [ih _ hdiv a, digitVal_digitChar _ (Nat.mod_lt _ (by omega))]
      have hdm : 10 * ((m + 1) / 10) + (m + 1) % 10 = m + 1 := Nat.div_add_mod (m + 1) 10
      calc 10 * (a * 10 ^ (natToCharsAux f ((m + 1) / 10)).length + (m + 1) / 10) + (m + 1) % 10
          = a * 10 ^ ((natToCharsAux f ((m + 1) / 10)).length + (0 + 1)) +
              (10 * ((m + 1) / 10) + (m + 1) % 10) := by ring
        _ = a * 10 ^ ((natToCharsAux f ((m + 1) / 10)).length + (0 + 1)) + (m + 1) := by
              rw [hdm]

theorem natOfDigits_natToChars (n : Nat) : natOfDigits (natToChars n) = n := by
  by_cases h : n = 0
  · subst h; decide
  · unfold natOfDigits natToChars
    rw [if_neg h]
    simpa using natToCharsAux_val n n le_rfl 0

theorem isDigit_not_ws (c : Char) (h : c.isDigit = true) : c.isWhitespace = false := by
  by_contra hw
  rw [Bool.not_eq_false] at hw
  have h4 : ((c = ' ' ∨ c = '\t') ∨ c = '\x0d') ∨ c = '\n' := by
    simpa [Char.isWhitespace] using hw
  rcases h4 with ((rfl | rfl) | rfl) | rfl <;> exact absurd h (by decide)

theorem isDigit_ne_dash (c : Char) (h : c.isDigit = true) : c ≠ '-' := by
  rintro rfl; exact absurd h (by decide)

theorem isDigit_ne_plus (c : Char) (h : c.isDigit = true) : c ≠ '+' := by
  rintro rfl; exact absurd h (by decide)

theorem takeWhile_all {p : Char → Bool} :
    ∀ (l : List Char), (∀ c ∈ l, p c = true) → l.takeWhile p = l := by
  intro l
  induction l with
  | nil => intro _; rfl
  | cons a t ih =>
    intro h
    rw [List.takeWhile_cons, h a (by simp)]
    simp [ih (fun c hc => h c (by simp [hc]))]

theorem dropWhile_head_false {p : Char → Bool} (a : Char) (t : List Char)
    (h : p a = false) : (a :: t).dropWhile p = a :: t := by
  rw [List.dropWhile_cons, h]
  simp

theorem dropWhile_all_false {p : Char → Bool} :
    ∀ (l : List Char), (∀ c ∈ l, p c = false) → l.dropWhile p = l := by
  intro l
  cases l with
  | nil => intro _; rfl
  | cons a t => intro h; exact dropWhile_head_false a t (h a (by simp))

theorem trimChars_eq_self (cs : List Char) (h : ∀ c ∈ cs, c.isWhitespace = false) :
    trimChars cs = cs := by
  unfold trimChars
  rw [dropWhile_all_false cs h,
    dropWhile_all_false cs.reverse (fun c hc => h c (List.mem_reverse.mp hc)),
    List.reverse_reverse]

theorem parseIntL_digits (ds : List Char) (hne : ds ≠ [])
    (hd : ∀ c ∈ ds, c.isDigit = true) :
    parseIntL ds = some (natOfDigits ds : Int) := by
  cases ds with
  | nil => exact absurd rfl hne
  | cons a t =>
    have ha := hd a (by simp)
    have hsign : parseSign (a :: t) = (1, a :: t) := by
      show (if a = '-' then ((-1 : Int), t)
            else if a = '+' then ((1 : Int), t) else ((1 : Int), a :: t)) = (1, a :: t)
      rw [if_neg (isDigit_ne_dash a ha), if_neg (isDigit_ne_plus a ha)]
    unfold parseIntL
    rw [dropWhile_head_false a t (isDigit_not_ws a ha), hsign]
    simp only
    rw [takeWhile_all (a :: t) hd]
    simp [List.isEmpty]

theorem natOfDigits_cons_zero (ds : List Char) :
    natOfDigits ('0' :: ds) = natOfDigits ds := by
  have h0 : digitVal '0' = 0 := by decide
  simp [natOfDigits, h0]

theorem pad2_of_one (cs : List Char) (h : cs.length = 1) : pad2 cs = '0' :: cs := by
  unfold pad2
  rw [if_pos (by omega), h]
  rfl

theorem pad2_of_ge (cs : List Char) (h : 2 ≤ cs.length) : pad2 cs = cs := by
  unfold pad2
  rw [if_neg (by omega)]

theorem pad2_digits (cs : List Char) (h : ∀ c ∈ cs, c.isDigit = true) :
    ∀ c ∈ pad2 cs, c.isDigit = true := by
  intro c hc
  unfold pad2 at hc
  by_cases hl : cs.length < 2
  · rw [if_pos hl] at hc
    rcases List.mem_append.mp hc with h1 | h1
    · have : c = '0' := List.eq_of_mem_replicate h1
      subst this; decide
    · exact h c h1
  · rw [if_neg hl] at hc
    exact h c hc

theorem parseIntL_pad2 (ds : List Char) (hne : ds ≠ [])
    (hd : ∀ c ∈ ds, c.isDigit = true) :
    parseIntL (pad2 ds) = some (natOfDigits ds : Int) := by
  rcases Nat.lt_or_ge ds.length 2 with hl | hl
  · have h1 : ds.length = 1 := by
      cases ds with
      | nil => exact absurd rfl hne
      | cons a t => simp only [List.length_cons] at hl ⊢; omega
    rw [pad2_of_one ds h1]
    rw [parseIntL_digits _ (by simp) (by
      intro c hc
      rcases List.mem_cons.mp hc with rfl | hc
      · decide
      · exact hd c hc)]
    rw [natOfDigits_cons_zero]
  · rw [pad2_of_ge ds hl]
    exact parseIntL_digits ds hne hd

theorem intToChars_pos (y : Int) (hy : 0 < y) : intToChars y = natToChars y.toNat := by
  unfold intToChars
  rw [if_neg (by omega)]

theorem parseIntL_intToChars_pos (y : Int) (hy : 0 < y) :
    parseIntL (intToChars y) = some y := by
  rw [intToChars_pos y hy,
    parseIntL_digits _ (natToChars_ne_nil _) (natToChars_digits _),
    natOfDigits_natToChars]
  congr 1
  omega

theorem parseIntL_pad2_intToChars_pos (m : Int) (hm : 0 < m) :
    parseIntL (pad2 (intToChars m)) = some m := by
  rw [intToChars_pos m hm,
    parseIntL_pad2 _ (natToChars_ne_nil _) (natToChars_digits _),
    natOfDigits_natToChars]
  congr 1
  omega

theorem splitOnChar_not_mem (sep : Char) :
    ∀ (l : List Char), sep ∉ l → splitOnChar sep l = [l] := by
  intro l
  induction l with
  | nil => intro _; rfl
  | cons c t ih =>
    intro h
    have hc : ¬(c = sep) := fun e => h (by simp [e])
    have ht : sep ∉ t := fun m => h (by simp [m])
    simp only [splitOnChar]
    rw [if_neg hc, ih ht]

theorem splitOnChar_append (sep : Char) :
    ∀ (l₁ l₂ : List Char), sep ∉ l₁ →
      splitOnChar sep (l₁ ++ sep :: l₂) = l₁ :: splitOnChar sep l₂ := by
  intro l₁
  induction l₁ with
  | nil =>
    intro l₂ _
    simp [splitOnChar]
  | cons c t ih =>
    intro l₂ h
    have hc : ¬(c = sep) := fun e => h (by simp [e])
    have ht : sep ∉ t := fun m => h (by simp [m])
    simp only [List.cons_append, splitOnChar]
    rw [if_neg hc]
    simp only [List.append_eq]
    rw [ih l₂ ht]

/-! Round-trip of the rendered canonical date through the
`"YYYY-MM-DD"` explicit format. -/

theorem renderDate_chars (y m d : Int) (hy : 0 < y) (hm : 0 < m) (hd : 0 < d) :
    ∀ c ∈ renderDate y m d, c.isDigit = true ∨ c = '-' := by
  intro c hc
  unfold renderDate at hc
  simp only [List.mem_append, List.mem_cons] at hc
  rcases hc with h | h | h | h | h
  · left
    rw [intToChars_pos y hy] at h
    exact natToChars_digits _ _ h
  · right; exact h
  · left
    rw [intToChars_pos m hm] at h
    exact pad2_digits _ (natToChars_digits _) _ h
  · right; exact h
  · left
    rw [intToChars_pos d hd] at h
    exact pad2_digits _ (natToChars_digits _) _ h

theorem renderDate_ne_nil (y m d : Int) : renderDate y m d ≠ [] := by
  unfold renderDate
  simp

theorem splitOnChar_renderDate (y m d : Int) (hy : 0 < y) (hm : 0 < m) (hd : 0 < d) :
    splitOnChar '-' (renderDate y m d) =
      [intToChars y, pad2 (intToChars m), pad2 (intToChars d)] := by
  have hA : '-' ∉ intToChars y := by
    intro h
    rw [intToChars_pos y hy] at h
    exact isDigit_ne_dash _ (natToChars_digits _ _ h) rfl
  have hB : '-' ∉ pad2 (intToChars m) := by
    intro h
    rw [intToChars_pos m hm] at h
    exact isDigit_ne_dash _ (pad2_digits _ (natToChars_digits _) _ h) rfl
  have hC : '-' ∉ pad2 (intToChars d) := by
    intro h
    rw [intToChars_pos d hd] at h
    exact isDigit_ne_dash _ (pad2_digits _ (natToChars_digits _) _ h) rfl
  unfold renderDate
  rw [splitOnChar_append '-' _ _ hA, splitOnChar_append '-' _ _ hB,
    splitOnChar_not_mem '-' _ hC]

theorem tokenAssign_YMD (parts : List (List Char)) :
    tokenAssign parts [['Y', 'Y', 'Y', 'Y'], ['M', 'M'], ['D', 'D']] 0 none none none =
      ((parts.get? 2).bind parseIntL, (parts.get? 1).bind parseIntL,
        (parts.get? 0).bind parseIntL) := by
  simp [tokenAssign]

theorem parseTokens_render (y m d : Int) (hy : 0 < y) (hm : 0 < m) (hd : 0 < d) :
    parseTokens (renderDate y m d) "YYYY-MM-DD" = some (y, m, d) := by
  have hsep : (("YYYY-MM-DD" : String).data.contains '/') = false := by decide
  have hfmt : splitOnChar '-' ("YYYY-MM-DD" : String).data =
      [['Y', 'Y', 'Y', 'Y'], ['M', 'M'], ['D', 'D']] := by decide
  simp only [parseTokens, hsep, Bool.false_eq_true, if_false,
    splitOnChar_renderDate y m d hy hm hd, hfmt, tokenAssign_YMD]
  rw [if_neg (by simp)]
  have h2 : (([intToChars y, pad2 (intToChars m), pad2 (intToChars d)] :
      List (List Char)).get? 2).bind parseIntL = some d := by
    show parseIntL (pad2 (intToChars d)) = some d
    exact parseIntL_pad2_intToChars_pos d hd
  have h1 : (([intToChars y, pad2 (intToChars m), pad2 (intToChars d)] :
      List (List Char)).get? 1).bind parseIntL = some m := by
    show parseIntL (pad2 (intToChars m)) = some m
    exact parseIntL_pad2_intToChars_pos m hm
  have h0 : (([intToChars y, pad2 (intToChars m), pad2 (intToChars d)] :
      List (List Char)).get? 0).bind parseIntL = some y := by
    show parseIntL (intToChars y) = some y
    exact parseIntL_intToChars_pos y hy
  rw [h2, h1, h0]
  show (if d ≠ 0 ∧ m ≠ 0 ∧ y ≠ 0 then some (y, m, d) else none) = some (y, m, d)
  rw [if_pos ⟨by omega, by omega, by omega⟩]

theorem normalizeDate_render (jsd : String → Option (Int × Int × Int))
    (y m d : Int) (hy : 0 < y) (hm : 0 < m) (hd : 0 < d) :
    normalizeDate jsd (String.mk (renderDate y m d)) "YYYY-MM-DD" =
      some (String.mk (renderDate y m d)) := by
  have hne : ¬(String.mk (renderDate y m d) = "") := by
    intro h
    exact renderDate_ne_nil y m d (by simpa [String.ext_iff] using h)
  have hnws : ∀ c ∈ renderDate y m d, c.isWhitespace = false := by
    intro c hc
    rcases renderDate_chars y m d hy hm hd c hc with h | h
    · exact isDigit_not_ws c h
    · subst h; decide
  have hdata : (String.mk (renderDate y m d)).data = renderDate y m d := rfl
  unfold normalizeDate
  rw [if_neg hne,
    if_pos (show ("YYYY-MM-DD" : String) ≠ "" ∧ ("YYYY-MM-DD" : String) ≠ "auto" from
      by constructor <;> decide)]
  rw [hdata, trimChars_eq_self _ hnws]
  unfold explicitParse
  rw [if_neg (show ¬(("YYYY-MM-DD" : String) = "DD-Mon-YY" ∨
      ("YYYY-MM-DD" : String) = "DD-Mon-YYYY") from by rintro (h | h) <;> exact absurd h (by decide))]
  rw [parseTokens_render y m d hy hm hd]
  rfl

theorem explicitFormat_ne (f : String) (hf : f ∈ explicitFormatList) :
    f ≠ "" ∧ f ≠ "auto" := by
  fin_cases hf <;> exact ⟨by decide, by decide⟩

theorem normalizeDate_explicit (jsd : String → Option (Int × Int × Int))
    (s f : String) (hs : ¬(s = "")) (hfa : f ≠ "" ∧ f ≠ "auto") :
    normalizeDate jsd s f =
      (explicitParse (trimChars s.data) f).map
        (fun t => String.mk (renderDate t.1 t.2.1 t.2.2)) := by
  unfold normalizeDate
  rw [if_neg hs, if_pos hfa]

theorem wordBoundaryMatch_iff (kw desc : List Char) :
    wordBoundaryMatch kw desc = true ↔
      ∃ i, i ≤ desc.length ∧ FlankedOccurrenceAt kw desc i := by
  unfold wordBoundaryMatch wbAt FlankedOccurrenceAt
  simp only [List.any_eq_true, List.mem_range, Nat.lt_succ_iff, Bool.and_eq_true,
    decide_eq_true_eq, Bool.or_eq_true, Bool.not_eq_true', List.isPrefixOf_iff_prefix]
  constructor
  · rintro ⟨i, hi, ⟨hpre, hleft⟩, hright⟩
    exact ⟨i, hi, hpre, hleft, hright⟩
  · rintro ⟨i, hi, hpre, hleft, hright⟩
    exact ⟨i, hi, ⟨hpre, hleft⟩, hright⟩

/-- A mapped row with no usable amount configuration (no complete
credit/debit pair and a blank or unresolvable single amount cell) is
silently rejected by `mapTransaction` — app.js:957/982. -/
theorem mapTransaction_noAmount (jsd : String → Option (Int × Int × Int))
    (row : RawRow) (p : BankProfile) (importId : Nat) (fmt : String)
    (hpair : (truthyOpt p.creditColumn && truthyOpt p.debitColumn) = false)
    (hblank : blankCell (optRefGet p row p.amountColumn) = true) :
    mapTransaction jsd row p importId fmt = none := by
  simp [mapTransaction, hpair, hblank]

/-- Lists of rules with pairwise-distinct ids that are permutations of
each other and both sorted by the SQL ordering are equal: the `ORDER BY
priority DESC, id ASC` result is uniquely determined. -/
theorem rules_sorted_unique :
    ∀ (l₁ l₂ : List Rule), l₁.Perm l₂ → List.Sorted ruleLE l₁ →
      List.Sorted ruleLE l₂ → (l₁.map Rule.id).Nodup → l₁ = l₂ := by
  intro l₁
  induction l₁ with
  | nil =>
    intro l₂ hp _ _ _
    exact (hp.symm.eq_nil).symm
  | cons a t ih =>
    intro l₂ hp hs₁ hs₂ hn
    cases l₂ with
    | nil => simp at hp
    | cons b t₂ =>
      have hab : a = b := by
        by_contra hne
        have ha2 : a ∈ b :: t₂ := hp.mem_iff.mp (by simp)
        have hb1 : b ∈ a :: t := hp.mem_iff.mpr (by simp)
        have hat2 : a ∈ t₂ := by
          rcases List.mem_cons.mp ha2 with h | h
          · exact absurd h hne
          · exact h
        have hbt : b ∈ t := by
          rcases List.mem_cons.mp hb1 with h | h
          · exact absurd h.symm hne
          · exact h
        have h1 : ruleLE a b := (List.sorted_cons.mp hs₁).1 b hbt
        have h2 : ruleLE b a := (List.sorted_cons.mp hs₂).1 a hat2
        have hid : a.id = b.id := by
          unfold ruleLE at h1 h2
          omega
        have hmap : (Rule.id a :: t.map Rule.id).Nodup := by simpa using hn
        exact (List.nodup_cons.mp hmap).1 (hid ▸ List.mem_map_of_mem Rule.id hbt)
      subst hab
      have hmap : (Rule.id a :: t.map Rule.id).Nodup := by simpa using hn
      rw [ih t₂ hp.cons_inv (List.sorted_cons.mp hs₁).2 (List.sorted_cons.mp hs₂).2
        (List.nodup_cons.mp hmap).2]

theorem sortRules_perm_invariant {l₁ l₂ : List Rule} (hp : l₁.Perm l₂)
    (hn : (l₁.map Rule.id).Nodup) : sortRules l₁ = sortRules l₂ := by
  apply rules_sorted_unique
  · exact (List.perm_insertionSort ruleLE _).trans
      ((hp.filter _).trans (List.perm_insertionSort ruleLE _).symm)
  · exact List.sorted_insertionSort ruleLE _
  · exact List.sorted_insertionSort ruleLE _
  · have hperm : (sortRules l₁).Perm (l₁.filter (fun r => r.enabled)) :=
      List.perm_insertionSort ruleLE _
    have hsub : ((l₁.filter (fun r => r.enabled)).map Rule.id).Nodup :=
      hn.sublist ((List.filter_sublist l₁).map Rule.id)
    exact ((hperm.map Rule.id).nodup_iff).mpr hsub

/-- C1: a row whose mapped raw date is non-empty but normalizes to null
is mapped to a transaction with a null date (not rejected by
`mapTransaction`, app.js:987-995); the insert then fails the
`date TEXT NOT NULL` constraint so nothing is stored, yet the row is
still counted among the imported transactions (`fileImported++`,
app.js:880-884).  Evaluation of the model at the failing input: the
stored list is empty while the imported count is 1. -/
theorem C1_nullDate_counted_eval :
    mapTransaction jsdNone rowBadDate profileE2E 7 "DD/MM/YYYY" =
      some { import_id := 7, date := none, description := "X", amount := 5,
             category := "Uncategorized" } ∧
    processRows jsdNone [rowBadDate] profileE2E "DD/MM/YYYY" 7 = ([], 1) := by
  decide

/-- C2 counterexample: two imports — one with a single valid row, one
with the same row plus a rejected (blank-amount) row — produce identical
observable results (same stored transactions, same imported count), even
though their rejected-row totals differ (0 versus 1).  Hence no value
returned by the import determines a `rejectedCount`. -/
theorem C2_counterexample :
    processRows jsdNone [rowOk] profileE2E "DD/MM/YYYY" 1 =
      processRows jsdNone [rowOk, rowBlankAmount] profileE2E "DD/MM/YYYY" 1 ∧
    ([rowOk] : List RawRow).length -
      (processRows jsdNone [rowOk] profileE2E "DD/MM/YYYY" 1).2 = 0 ∧
    ([rowOk, rowBlankAmount] : List RawRow).length -
      (processRows jsdNone [rowOk, rowBlankAmount] profileE2E "DD/MM/YYYY" 1).2 = 1 := by
  decide

/-- C2 (amended): the import produces exactly the accepted (storable)
transactions in input row order, plus a count of the rows that mapped
successfully; rejected rows are skipped without being recorded, so no
rejected count is part of the result. -/
theorem C2_import_return_value (jsd : String → Option (Int × Int × Int))
    (p : BankProfile) (fmt : String) (importId : Nat) (rows : List RawRow) :
    processRows jsd rows p fmt importId =
      ((rows.filterMap fun row => mapTransaction jsd row p importId fmt).filter
          (fun t => t.date.isSome),
        (rows.filterMap fun row => mapTransaction jsd row p importId fmt).length) :=
  processRows_spec jsd p fmt importId rows

/-- C3 counterexample: with a profile configuring no amount source, the
whole call does not fail up front — each row is individually mapped
(yielding `none`) and silently dropped, and the call completes normally
with zero imports; with an unknown `dateFormat` (`"DD.MM.YYYY"`), a
valid row is processed and even counted as imported (with a null date
that the storage layer then drops). -/
theorem C3_counterexample :
    (mapTransaction jsdNone rowOk noAmountProfile 1 "DD/MM/YYYY" = none ∧
      processRows jsdNone [rowOk, rowBlankAmount] noAmountProfile "DD/MM/YYYY" 1 =
        ([], 0)) ∧
    processRows jsdNone [rowOk] profileE2E "DD.MM.YYYY" 1 = ([], 1) := by
  decide

/-- C3 (amended): there is no up-front configuration validation.  A
profile with neither a single amount column nor a complete credit/debit
pair silently rejects every row one by one; the import call completes
normally returning no transactions and an imported count of zero. -/
theorem C3_no_upfront_validation (jsd : String → Option (Int × Int × Int))
    (p : BankProfile) (fmt : String) (importId : Nat) (rows : List RawRow)
    (hpair : (truthyOpt p.creditColumn && truthyOpt p.debitColumn) = false)
    (hblank : ∀ row ∈ rows, blankCell (optRefGet p row p.amountColumn) = true) :
    processRows jsd rows p fmt importId = ([], 0) := by
  rw [processRows_spec]
  have hnone : ∀ row ∈ rows, mapTransaction jsd row p importId fmt = none :=
    fun row hr => mapTransaction_noAmount jsd row p importId fmt hpair (hblank row hr)
  rw [List.filterMap_eq_nil_iff.mpr hnone]
  rfl

/-- Witness for C3 (amended) at a concrete misconfigured profile. -/
theorem C3_witness :
    ((truthyOpt noAmountProfile.creditColumn &&
        truthyOpt noAmountProfile.debitColumn) = false ∧
      ∀ row ∈ ([rowOk, rowBlankAmount] : List RawRow),
        blankCell (optRefGet noAmountProfile row noAmountProfile.amountColumn) = true) ∧
    processRows jsdNone [rowOk, rowBlankAmount] noAmountProfile "DD/MM/YYYY" 1 =
      ([], 0) := by
  refine ⟨⟨by decide, by decide⟩, ?_⟩
  exact C3_no_upfront_validation jsdNone noAmountProfile "DD/MM/YYYY" 1
    [rowOk, rowBlankAmount] (by decide) (by decide)

/-- C4 counterexample: under a credit/debit profile, a blank credit cell
and a debit cell `"-30"` map to amount `0 − (−30) = 30` — `parseAmount`
keeps the sign — whereas the claimed unsigned-magnitude reading gives
`|0| − |−30| = −30`.  The sign character in the debit cell flips the
result's direction. -/
theorem C4_counterexample :
    (mapTransaction jsdNone rowSignedDebit pairedProfile 1 "DD/MM/YYYY").map Txn.amount =
      some (parseAmount (some "") - parseAmount (some "-30")) ∧
    parseAmount (some "") - parseAmount (some "-30") = 30 ∧
    magnitudeAmount (some "") (some "-30") = -30 ∧
    (30 : ℚ) ≠ -30 := by
  have e1 : parseAmount (some "") = 0 := by decide
  have e2 : parseAmount (some "-30") = -30 := by decide
  refine ⟨rfl, ?_, ?_, by norm_num⟩
  · rw [e1, e2]; norm_num
  · unfold magnitudeAmount; rw [e1, e2]; norm_num

/-- C4 (amended): for every row mapped under a profile with both
creditColumn and debitColumn configured, the mapped amount equals
`parseAmount(credit cell) − parseAmount(debit cell)`, where `parseAmount`
preserves any leading sign (JavaScript `parseFloat`); it does not read
unsigned magnitudes. -/
theorem C4_paired_amount_signed (jsd : String → Option (Int × Int × Int))
    (row : RawRow) (p : BankProfile) (importId : Nat) (fmt : String) (t : Txn)
    (hc : truthyOpt p.creditColumn = true) (hd : truthyOpt p.debitColumn = true)
    (ht : mapTransaction jsd row p importId fmt = some t) :
    t.amount = parseAmount (optRefGet p row p.creditColumn) -
               parseAmount (optRefGet p row p.debitColumn) := by
  unfold mapTransaction at ht
  rw [hc, hd] at ht
  simp only [Bool.and_self, eq_self_iff_true, if_true] at ht
  cases hdate : truthyOpt (modeGet p row p.dateColumn) with
  | false =>
    rw [hdate] at ht
    simp at ht
  | true =>
    rw [hdate] at ht
    simp only [eq_self_iff_true, if_true, Option.some.injEq] at ht
    rw [← ht]

/-- Witness for C4 (amended) at a concrete paired-column row. -/
theorem C4_witness :
    ({ import_id := 1, date := some "2024-01-15", description := "X",
       amount := parseAmount (some "30") - parseAmount (some ""),
       category := "Uncategorized" } : Txn).amount =
      parseAmount (optRefGet pairedProfile (RawRow.arr ["15/01/2024", "X", "30", ""])
          pairedProfile.creditColumn) -
      parseAmount (optRefGet pairedProfile (RawRow.arr ["15/01/2024", "X", "30", ""])
          pairedProfile.debitColumn) :=
  C4_paired_amount_signed jsdNone (RawRow.arr ["15/01/2024", "X", "30", ""])
    pairedProfile 1 "DD/MM/YYYY" _ (by decide) (by decide) rfl

/-- C10 counterexample: under the paired-column profile an entirely blank
row is rejected, not accepted: its blank date cell fails the `!date`
test.  Blank lines therefore do not produce zero-amount transactions. -/
theorem C10_counterexample :
    truthyOpt pairedProfile.creditColumn = true ∧
    truthyOpt pairedProfile.debitColumn = true ∧
    mapTransaction jsdNone (RawRow.arr ["", "", "", ""]) pairedProfile 1 "DD/MM/YYYY" =
      none := by
  decide

/-- C10 (amended): under a profile with both credit and debit columns
configured, cells that parse to 0 (in particular empty or unparseable
cells) never cause an amount rejection: the row maps to amount 0 and is
accepted whenever its raw date cell is non-empty, and is rejected for
the missing date otherwise — unlike single-amount-column mode, where a
blank amount cell rejects the row outright. -/
theorem C10_paired_blank_amount (jsd : String → Option (Int × Int × Int))
    (row : RawRow) (p : BankProfile) (importId : Nat) (fmt : String)
    (hc : truthyOpt p.creditColumn = true) (hd : truthyOpt p.debitColumn = true)
    (hcz : parseAmount (optRefGet p row p.creditColumn) = 0)
    (hdz : parseAmount (optRefGet p row p.debitColumn) = 0) :
    (truthyOpt (modeGet p row p.dateColumn) = true →
      ∃ t, mapTransaction jsd row p importId fmt = some t ∧ t.amount = 0) ∧
    (truthyOpt (modeGet p row p.dateColumn) = false →
      mapTransaction jsd row p importId fmt = none) ∧
    ∀ (p2 : BankProfile) (row2 : RawRow),
      (truthyOpt p2.creditColumn && truthyOpt p2.debitColumn) = false →
      blankCell (optRefGet p2 row2 p2.amountColumn) = true →
      mapTransaction jsd row2 p2 importId fmt = none := by
  refine ⟨?_, ?_, fun p2 row2 h1 h2 => mapTransaction_noAmount jsd row2 p2 importId fmt h1 h2⟩
  · intro hdate
    unfold mapTransaction
    rw [hc, hd]
    simp only [Bool.and_self, eq_self_iff_true, if_true, hdate]
    refine ⟨_, rfl, ?_⟩
    show parseAmount (optRefGet p row p.creditColumn) -
        parseAmount (optRefGet p row p.debitColumn) = 0
    rw [hcz, hdz]
    norm_num
  · intro hdate
    unfold mapTransaction
    rw [hc, hd]
    simp only [Bool.and_self, eq_self_iff_true, if_true, hdate, Bool.false_eq_true, if_false]

/-- Witness for C10 (amended) at a concrete blank-amount paired row. -/
theorem C10_witness :
    (truthyOpt (modeGet pairedProfile (RawRow.arr ["15/01/2024", "X", "", ""])
        pairedProfile.dateColumn) = true →
      ∃ t, mapTransaction jsdNone (RawRow.arr ["15/01/2024", "X", "", ""]) pairedProfile 1
          "DD/MM/YYYY" = some t ∧ t.amount = 0) ∧
    (truthyOpt (modeGet pairedProfile (RawRow.arr ["15/01/2024", "X", "", ""])
        pairedProfile.dateColumn) = false →
      mapTransaction jsdNone (RawRow.arr ["15/01/2024", "X", "", ""]) pairedProfile 1
          "DD/MM/YYYY" = none) ∧
    ∀ (p2 : BankProfile) (row2 : RawRow),
      (truthyOpt p2.creditColumn && truthyOpt p2.debitColumn) = false →
      blankCell (optRefGet p2 row2 p2.amountColumn) = true →
      mapTransaction jsdNone row2 p2 1 "DD/MM/YYYY" = none :=
  C10_paired_blank_amount jsdNone (RawRow.arr ["15/01/2024", "X", "", ""]) pairedProfile 1
    "DD/MM/YYYY" (by decide) (by decide) (by decide) (by decide)

/-- C5: bulk re-application of rules (when at least one enabled rule
exists, otherwise the operation aborts changing nothing) rewrites the
stored table positionally: every transaction with `manual_category = 1`
is passed through unchanged — the Rule Engine is never consulted for it —
while every other transaction is replaced by `bulkRuleStep`, the
per-transaction rule update of app.js:4323-4337; the `skippedManual`
counter is exactly the number of manual-override transactions. -/
theorem C5_manual_override_frame (rules : List Rule) (cats : List String)
    (txns : List StoredTxn) (hEn : (rules.filter fun r => r.enabled) ≠ []) :
    (applyRulesToExisting rules cats txns).txns =
      txns.map (fun t => if t.manualCategory then t else bulkRuleStep rules cats t) ∧
    (applyRulesToExisting rules cats txns).skippedManual =
      (txns.filter fun t => t.manualCategory).length := by
  have hne : ¬((rules.filter fun r => r.enabled).isEmpty = true) := by
    simpa [List.isEmpty_iff] using hEn
  unfold applyRulesToExisting
  rw [if_neg hne]
  constructor
  · simpa using bulkBody_txns rules cats txns
      { txns := [], ignoredCount := 0, categorizedCount := 0, skippedManual := 0 }
  · simpa using bulkBody_skipped rules cats txns
      { txns := [], ignoredCount := 0, categorizedCount := 0, skippedManual := 0 }

/-- Witness for C5 at a concrete table: the manual-override transaction
is returned untouched while the other one is re-categorized to "Fees". -/
theorem C5_witness :
    ((applyRulesToExisting [ruleFee] ["Fees"] [txnManual, txnAuto]).txns =
        [txnManual, txnAuto].map
          (fun t => if t.manualCategory then t else bulkRuleStep [ruleFee] ["Fees"] t) ∧
      (applyRulesToExisting [ruleFee] ["Fees"] [txnManual, txnAuto]).skippedManual =
        ([txnManual, txnAuto].filter fun t => t.manualCategory).length) ∧
    (applyRulesToExisting [ruleFee] ["Fees"] [txnManual, txnAuto]).txns =
      [txnManual, { txnAuto with category := some "Fees" }] := by
  refine ⟨C5_manual_override_frame [ruleFee] ["Fees"] [txnManual, txnAuto] (by decide), ?_⟩
  decide

/-- C6: a rule matches exactly when some occurrence of its
(case-canonicalized) keyword in the description is flanked on the left
by the string start or a non-word character and on the right by the
string end or a non-word character; in particular keyword "CAT" does not
match "CATALOG PURCHASE" but matches "CAT FOOD", and matching is
case-insensitive ("cat" matches "CAT FOOD") unless `caseSensitive` is
set ("cat" then fails against "CAT FOOD"). -/
theorem C6_word_boundary :
    (∀ (r : Rule) (description : String),
      ruleMatches r description = true ↔
        ∃ i, i ≤ (canon r.caseSensitive description.data).length ∧
          FlankedOccurrenceAt (canon r.caseSensitive r.keyword.data)
            (canon r.caseSensitive description.data) i) ∧
    ruleMatches ruleCAT "CATALOG PURCHASE" = false ∧
    ruleMatches ruleCAT "CAT FOOD" = true ∧
    ruleMatches ruleCatLower "CAT FOOD" = true ∧
    ruleMatches ruleCatLowerCS "CAT FOOD" = false := by
  refine ⟨?_, by decide, by decide, by decide, by decide⟩
  intro r description
  unfold ruleMatches
  exact wordBoundaryMatch_iff _ _

/-- C7: rule resolution fills the ignore slot and the category slot
independently, each first-match-wins over the priority-ordered enabled
rules; stopping the scan once both slots are filled (the source's
`break`) yields exactly the same result as scanning the whole list, and
the result is characterized by: ignore = some enabled ignore rule
matches; category = the first matching enabled categorize rule carrying
a non-null category, else the fallback. -/
theorem C7_two_slots_early_stop (rules : List Rule) (description : String)
    (defaultCategory : Option String) :
    applyTransactionRules rules description defaultCategory =
      applyTransactionRulesFull rules description defaultCategory ∧
    applyTransactionRules rules description defaultCategory =
      (if description = "" then (false, jsOrOpt defaultCategory "Uncategorized")
       else
        ((sortRules rules).any
            (fun r => decide (r.action = "ignore") && ruleMatches r description),
          (((sortRules rules).find?
              (fun r => decide (r.action = "categorize") && truthyOpt r.category &&
                ruleMatches r description)).map
            (fun r => r.category.getD "")).getD (jsOrOpt defaultCategory "Uncategorized"))) := by
  constructor
  · unfold applyTransactionRules applyTransactionRulesFull
    by_cases h : description = ""
    · rw [if_pos h, if_pos h]
    · rw [if_neg h, if_neg h, ruleScan_eq_full]
  · unfold applyTransactionRules
    by_cases h : description = ""
    · rw [if_pos h, if_pos h]
    · rw [if_neg h, if_neg h, ruleScan_eq_full]
      refine Prod.ext ?_ ?_
      · rw [ruleScanFull_fst]
        simp
      · rw [ruleScanFull_snd]

/-- C8: only enabled rules are considered, the scan order is priority
descending with ties broken by id ascending, and — given pairwise
distinct rule ids — the result of rule resolution is invariant under any
permutation of the supplied rule list. -/
theorem C8_priority_order_determinism (l₁ l₂ : List Rule) (description : String)
    (defaultCategory : Option String) (hp : l₁.Perm l₂)
    (hn : (l₁.map Rule.id).Nodup) :
    applyTransactionRules l₁ description defaultCategory =
      applyTransactionRules l₂ description defaultCategory ∧
    (∀ r ∈ sortRules l₁, r.enabled = true) ∧
    List.Sorted ruleLE (sortRules l₁) := by
  refine ⟨?_, ?_, List.sorted_insertionSort ruleLE _⟩
  · unfold applyTransactionRules
    rw [sortRules_perm_invariant hp hn]
  · intro r hr
    have hmem : r ∈ l₁.filter (fun r => r.enabled) :=
      (List.perm_insertionSort ruleLE _).mem_iff.mp hr
    simpa using List.of_mem_filter hmem

/-- Witness for C8: with both orderings of the same two matching
categorize rules (priorities 5 and 10), resolution gives the same
answer, and the priority-10 rule's category wins. -/
theorem C8_witness :
    applyTransactionRules [ruleP5, ruleP10] "STORE VISIT" none =
      applyTransactionRules [ruleP10, ruleP5] "STORE VISIT" none ∧
    applyTransactionRules [ruleP5, ruleP10] "STORE VISIT" none = (false, "High") := by
  refine ⟨?_, by decide⟩
  exact (C8_priority_order_determinism [ruleP5, ruleP10] [ruleP10, ruleP5]
    "STORE VISIT" none (by decide) (by decide)).1

/-- C9 counterexample: `"0-Feb-26"` is accepted by the explicit
`DD-Mon-YY` format (the day regex `\d{1,2}` admits `0`, which only the
separator-token branch would reject), normalizing to `"2026-02-00"`; but
re-normalizing that canonical output with `"YYYY-MM-DD"` yields null —
the `!day` truthiness test rejects day 0 — so
`normalize(normalize(s, f), "YYYY-MM-DD") ≠ normalize(s, f)` for this
accepted explicit pair. -/
theorem C9_counterexample :
    ("DD-Mon-YY" : String) ∈ explicitFormatList ∧
    normalizeDate jsdNone "0-Feb-26" "DD-Mon-YY" = some "2026-02-00" ∧
    normalizeDate jsdNone
        ((normalizeDate jsdNone "0-Feb-26" "DD-Mon-YY").getD "") "YYYY-MM-DD" = none ∧
    (none : Option String) ≠ some "2026-02-00" := by
  decide

/-- C9 (amended): for every explicit format of the vocabulary and every
input the normalizer accepts with positive parsed day, month and year
components — in particular every genuine calendar date — normalization
is idempotent: re-normalizing the canonical output under `"YYYY-MM-DD"`
returns it unchanged (and the function is deterministic by
construction).  Degenerate accepted inputs with a zero or negative
component (see the counterexample) are the only exceptions. -/
theorem C9_explicit_idempotent (jsd : String → Option (Int × Int × Int))
    (s f : String) (y m d : Int) (hf : f ∈ explicitFormatList) (hs : ¬(s = ""))
    (hp : explicitParse (trimChars s.data) f = some (y, m, d))
    (hy : 0 < y) (hm : 0 < m) (hd : 0 < d) :
    normalizeDate jsd s f = some (String.mk (renderDate y m d)) ∧
    normalizeDate jsd (String.mk (renderDate y m d)) "YYYY-MM-DD" =
      some (String.mk (renderDate y m d)) ∧
    normalizeDate jsd ((normalizeDate jsd s f).getD "") "YYYY-MM-DD" =
      normalizeDate jsd s f := by
  have hfa := explicitFormat_ne f hf
  have h1 : normalizeDate jsd s f = some (String.mk (renderDate y m d)) := by
    rw [normalizeDate_explicit jsd s f hs hfa, hp]
    rfl
  have h2 := normalizeDate_render jsd y m d hy hm hd
  refine ⟨h1, h2, ?_⟩
  rw [h1]
  exact h2

/-- Witness for C9 (amended) at the concrete pair
(`"16/02/2026"`, `"DD/MM/YYYY"`). -/
theorem C9_witness :
    normalizeDate jsdNone "16/02/2026" "DD/MM/YYYY" =
      some (String.mk (renderDate 2026 2 16)) ∧
    normalizeDate jsdNone (String.mk (renderDate 2026 2 16)) "YYYY-MM-DD" =
      some (String.mk (renderDate 2026 2 16)) ∧
    normalizeDate jsdNone
        ((normalizeDate jsdNone "16/02/2026" "DD/MM/YYYY").getD "") "YYYY-MM-DD" =
      normalizeDate jsdNone "16/02/2026" "DD/MM/YYYY" :=
  C9_explicit_idempotent jsdNone "16/02/2026" "DD/MM/YYYY" 2026 2 16
    (by decide) (by decide) (by decide) (by decide) (by decide) (by decide)

/-- Witness for C2 (amended) at a concrete import (one accepted row, one
rejected row). -/
theorem C2_witness :
    processRows jsdNone [rowOk, rowBlankAmount] profileE2E "DD/MM/YYYY" 1 =
      ((([rowOk, rowBlankAmount] : List RawRow).filterMap
          fun row => mapTransaction jsdNone row profileE2E 1 "DD/MM/YYYY").filter
          (fun t => t.date.isSome),
        (([rowOk, rowBlankAmount] : List RawRow).filterMap
          fun row => mapTransaction jsdNone row profileE2E 1 "DD/MM/YYYY").length) :=
  C2_import_return_value jsdNone profileE2E "DD/MM/YYYY" 1 [rowOk, rowBlankAmount]

/-- Witness for C6 at the keyword "CAT": the characterization
instantiated at a concrete rule and description. -/
theorem C6_witness :
    ruleMatches ruleCAT "CAT FOOD" = true ↔
      ∃ i, i ≤ (canon ruleCAT.caseSensitive ("CAT FOOD" : String).data).length ∧
        FlankedOccurrenceAt (canon ruleCAT.caseSensitive ruleCAT.keyword.data)
          (canon ruleCAT.caseSensitive ("CAT FOOD" : String).data) i :=
  C6_word_boundary.1 ruleCAT "CAT FOOD"

/-- Witness for C7 at a concrete rule set triggering both slots. -/
theorem C7_witness :
    (applyTransactionRules [ruleFee] "FEE CHARGED" none =
        applyTransactionRulesFull [ruleFee] "FEE CHARGED" none ∧
      applyTransactionRules [ruleFee] "FEE CHARGED" none =
        (if ("FEE CHARGED" : String) = "" then (false, jsOrOpt none "Uncategorized")
         else
          ((sortRules [ruleFee]).any
              (fun r => decide (r.action = "ignore") && ruleMatches r "FEE CHARGED"),
            (((sortRules [ruleFee]).find?
                (fun r => decide (r.action = "categorize") && truthyOpt r.category &&
                  ruleMatches r "FEE CHARGED")).map
              (fun r => r.category.getD "")).getD (jsOrOpt none "Uncategorized")))) ∧
    applyTransactionRules [ruleFee] "FEE CHARGED" none = (false, "Fees") :=
  ⟨C7_two_slots_early_stop [ruleFee] "FEE CHARGED" none, by decide⟩

end BankApp
